import Mathlib

/-!
# Student Performance Analytics Dashboard — verification development

Shallow embedding of `SPADashboard.py`: the column derivation performed at
module load, the gender filter and groupby aggregation in `update_plots`,
and the figure generation in `generate_figures`.

Modelling conventions:
* a pandas DataFrame is a `List Row`; the ten projected columns are the
  fields of `Row`.  The `consumption_level` column that `generate_figures`
  assigns in place (line 112 of the source) is modelled as an
  `Option String` field, `none` while the column is absent;
* numeric cells are `ℚ` (means require exact division);
* `pd.Categorical` values of the `studytime` column are `Option String`:
  `none` is NaN (an unmapped code);
* in-place mutation of a dataframe is modelled by returning the post-call
  state of the table; the module-level global `selected_data` is modelled
  as slot 0 of an explicit heap (`List Table`) so that aliasing versus
  `.copy()` is observable;
* `groupby(..., observed=True)` produces one group per key combination
  present in the data, rows with a NaN (none) key being dropped
  (pandas `dropna=True` default).  The pandas ordering of the grouped rows
  (sorted keys) is not modelled: no claim concerns the order of grouped
  rows.  For the line chart, `groupby('studytime')` on the ordered
  categorical followed by `sort_values('studytime')` is modelled as a pass
  over the fixed category list in order, keeping the categories that occur
  in the data (a category with no rows contributes no data point to the
  chart).
-/

/-- One row of the projected working table (`selected_data`, source line 44):
columns sex, studytime, internet, higher education, failures, freetime,
traveltime, consumptionlevel, absences, GPA, plus the bin column
`consumption_level` added later by `generate_figures` (`none` = absent). -/
structure Row where
  sex : String
  studytime : Option String
  internet : String
  higher_education : String
  failures : ℚ
  freetime : ℚ
  traveltime : ℚ
  consumptionlevel : ℚ
  absences : ℚ
  GPA : ℚ
  consumption_level : Option String := none
deriving DecidableEq, Repr

/-- A table is a list of rows. -/
abbrev Table := List Row

/-- One raw CSV record, restricted to the columns the derivation reads. -/
structure RawRow where
  sex : String
  studytime : ℤ
  Dalc : ℚ
  Walc : ℚ
  G3 : ℚ
  higher : String
  internet : String
  failures : ℚ
  freetime : ℚ
  traveltime : ℚ
  absences : ℚ
deriving DecidableEq, Repr

/-- The four ordered studytime categories (source lines 23–28). -/
def stCategories : List String := ["<2 hours", "2-5 hours", "5-10 hours", ">10 hours"]

/-- `data['studytime'].map({1: '<2 hours', ...})` (source lines 21–30).
pandas `.map` sends a key absent from the dict to NaN, modelled as `none`. -/
def studytimeMap (code : ℤ) : Option String :=
  if code = 1 then some "<2 hours"
  else if code = 2 then some "2-5 hours"
  else if code = 3 then some "5-10 hours"
  else if code = 4 then some ">10 hours"
  else none

/-- `data['sex'].replace({'F': 'Female', 'M': 'Male'})` (source line 42);
`replace` leaves any other value unchanged. -/
def replaceSex (s : String) : String :=
  if s = "F" then "Female" else if s = "M" then "Male" else s

/-- The column derivation applied to one raw record (source lines 21–45):
studytime mapping, `consumptionlevel = max(Dalc, Walc)`, `GPA = G3 * 5`,
`higher education = higher`, sex relabelling, then projection onto the ten
analysis columns. -/
def deriveRow (r : RawRow) : Row where
  sex := replaceSex r.sex
  studytime := studytimeMap r.studytime
  internet := r.internet
  higher_education := r.higher
  failures := r.failures
  freetime := r.freetime
  traveltime := r.traveltime
  consumptionlevel := max r.Dalc r.Walc
  absences := r.absences
  GPA := r.G3 * 5
  consumption_level := none

/-- Mean of a list of rationals (`mean` aggregation); junk value 0 on the
empty list — every use below is on a nonempty group. -/
def meanQ (l : List ℚ) : ℚ := l.sum / l.length

/-- The gender filter of `update_plots` (source lines 334–337):
`selected_data.copy()` for "All", otherwise the boolean-mask selection
`selected_data[selected_data['sex'] == selected_gender]`.  Both branches
produce a fresh table (value semantics here; the heap model below records
the freshness). -/
def update_filter (sel : String) (t : Table) : Table :=
  if sel = "All" then t else t.filter (fun r => r.sex == sel)

/-- The grouping key of `groupby(['sex', 'studytime', 'internet',
'higher education'], observed=True)` (source line 340). -/
structure GKey where
  sex : String
  studytime : Option String
  internet : String
  higher_education : String
deriving DecidableEq, Repr

/-- The grouping key of a row. -/
def keyOf (r : Row) : GKey :=
  ⟨r.sex, r.studytime, r.internet, r.higher_education⟩

/-- One row of the grouped table: the key columns plus the four
mean-aggregated columns (source lines 340–345). -/
structure GRow where
  key : GKey
  consumptionlevel : ℚ
  failures : ℚ
  absences : ℚ
  GPA : ℚ
deriving DecidableEq, Repr

/-- Rows that participate in grouping: pandas `groupby` drops rows whose
key contains NaN (`dropna=True` default); only `studytime` can be NaN. -/
def groupable (t : Table) : Table := t.filter (fun r => r.studytime.isSome)

/-- Rows of `t` whose key equals `k`. -/
def groupOf (t : Table) (k : GKey) : Table :=
  (groupable t).filter (fun r => keyOf r == k)

/-- The distinct grouping keys present in the data, `observed=True`:
only key combinations that actually occur form a group. -/
def gkeys (t : Table) : List GKey := ((groupable t).map keyOf).dedup

/-- `filtered_data.groupby(['sex','studytime','internet','higher education'],
observed=True).agg({...: 'mean'}).reset_index()` (source lines 340–345):
one row per key combination present, each aggregated column the mean over
that group's rows.  (pandas sorts the grouped rows by key; the row order is
not modelled, no claim depends on it.) -/
def groupedTable (t : Table) : List GRow :=
  (gkeys t).map (fun k =>
    { key := k
      consumptionlevel := meanQ ((groupOf t k).map Row.consumptionlevel)
      failures := meanQ ((groupOf t k).map Row.failures)
      absences := meanQ ((groupOf t k).map Row.absences)
      GPA := meanQ ((groupOf t k).map Row.GPA) })

/-- Minimum of a rational column (`Series.min`); junk value 0 on an empty
column — used only on nonempty tables. -/
def colMin : List ℚ → ℚ
  | [] => 0
  | x :: xs => xs.foldl min x

/-- Maximum of a rational column (`Series.max`). -/
def colMax : List ℚ → ℚ
  | [] => 0
  | x :: xs => xs.foldl max x

/-- The four bin edges `pd.cut(x, bins=3, ...)` computes from the column's
minimum `mn` and maximum `mx`: `np.linspace(mn, mx, 4)` with the leftmost
edge lowered by 0.1% of the range so the minimum falls inside the first
bin; when `mn == mx` pandas instead widens both ends by 0.1% of `|mn|`
(by 0.001 when `mn` is 0). -/
def cutEdges (mn mx : ℚ) : ℚ × ℚ × ℚ × ℚ :=
  if mn = mx then
    let lo := if mn = 0 then -(1/1000) else mn - |mn| / 1000
    let hi := if mx = 0 then 1/1000 else mx + |mx| / 1000
    (lo, lo + (hi - lo) / 3, lo + 2 * ((hi - lo) / 3), hi)
  else
    let adj := (mx - mn) / 1000
    (mn - adj, mn + (mx - mn) / 3, mn + 2 * ((mx - mn) / 3), mx)

/-- Bin label of a single value for `pd.cut(..., bins=3,
labels=['Low','Medium','High'], include_lowest=True)` (source lines
111–117): bins are right-closed intervals between consecutive edges; a
value outside every bin gets NaN (`none`).  `include_lowest` closes the
leftmost bin on the left, which is inert here because the leftmost edge is
already strictly below the column minimum. -/
def cutLabel3 (mn mx v : ℚ) : Option String :=
  match cutEdges mn mx with
  | (e0, e1, e2, e3) =>
    if v ≤ e0 then none
    else if v ≤ e1 then some "Low"
    else if v ≤ e2 then some "Medium"
    else if v ≤ e3 then some "High"
    else none

/-- `filtered_data['consumption_level'] = pd.cut(
filtered_data['consumptionlevel'], bins=3, labels=consumption_levels,
include_lowest=True)` (source lines 112–117): the in-place column
assignment, modelled as the post-assignment table.  The bin edges come
from the minimum and maximum of the table's own `consumptionlevel`
column. -/
def addConsumptionBin (t : Table) : Table :=
  let vals := t.map Row.consumptionlevel
  let mn := colMin vals
  let mx := colMax vals
  t.map (fun r => { r with consumption_level := cutLabel3 mn mx r.consumptionlevel })

/-- Follows the spec's words, for comparison with `addConsumptionBin`:
the claim that the bin label is obtained by cutting the fixed 1–5 range
into three equal-width bins, so that it is a function of the row's value
alone. -/
def specFixedBinLabel (v : ℚ) : Option String := cutLabel3 1 5 v

/-- `filtered_data.groupby(['studytime','internet'],
observed=True)['GPA'].mean().reset_index()` (source line 68): mean GPA per
(studytime, internet) pair present in the data; NaN studytime rows are
dropped by groupby. -/
def sunburstData (t : Table) : List ((String × String) × ℚ) :=
  ((t.filterMap (fun r => r.studytime.map (fun c => (c, r.internet)))).dedup).map
    (fun k => (k, meanQ ((t.filter
      (fun r => r.studytime == some k.1 && r.internet == k.2)).map Row.GPA)))

/-- Mean GPA over the rows of `t` in studytime category `c`. -/
def meanGPAof (t : Table) (c : String) : ℚ :=
  meanQ ((t.filter (fun r => r.studytime == some c)).map Row.GPA)

/-- The line-chart data (source lines 141–148):
`filtered_data.groupby('studytime').agg({'GPA': 'mean'})`, re-attached to
the ordered categorical, then `sort_values('studytime')`.  One data point
per studytime category that occurs in the data, in category order; a
category with no rows yields no data point on the chart (its mean is NaN,
which draws nothing), and NaN studytime rows are dropped by groupby. -/
def lineChartData (t : Table) : List (String × ℚ) :=
  (stCategories.filter (fun c => t.any (fun r => r.studytime == some c))).map
    (fun c => (c, meanGPAof t c))

/-- `filtered_data.groupby('sex').agg({'consumptionlevel': 'mean',
'GPA': 'mean'}).reset_index()` (source line 168): per sex value present,
the mean consumption level and mean GPA. -/
def barData (t : Table) : List (String × ℚ × ℚ) :=
  ((t.map Row.sex).dedup).map (fun s =>
    (s, meanQ ((t.filter (fun r => r.sex == s)).map Row.consumptionlevel),
        meanQ ((t.filter (fun r => r.sex == s)).map Row.GPA)))

/-- The seven figures returned by `generate_figures` (source lines
228–236), reduced to the data each chart plots. -/
structure FigureSet where
  sunburst : List ((String × String) × ℚ)
  scatter : List GRow
  box : Table
  line : List (String × ℚ)
  bar : List (String × ℚ × ℚ)
  hist : List ℚ
  violin : List (String × ℚ)
deriving DecidableEq, Repr

/-- `generate_figures(filtered_data, grouped_data)` (source lines 50–236).
Besides the figure set, the result records the post-call states of the two
argument tables: the function assigns the `consumption_level` column to
`filtered_data` in place (line 112) before building the box, line, bar,
hist and violin figures; the sunburst is built from the pre-assignment
state, and `grouped_data` is never written. -/
def generate_figures (filtered : Table) (grouped : List GRow) :
    Table × List GRow × FigureSet :=
  let grouped_sun := sunburstData filtered
  let filtered2 := addConsumptionBin filtered
  let figs : FigureSet :=
    { sunburst := grouped_sun
      scatter := grouped
      box := filtered2
      line := lineChartData filtered2
      bar := barData filtered2
      hist := filtered2.map Row.absences
      violin := filtered2.map (fun r => (r.higher_education, r.GPA)) }
  (filtered2, grouped, figs)

/-- The Filter/Group Engine of the spec, as the source implements it
(source lines 334–345): filter by the selection, then group; total — the
source has no error path for an unexpected selection value. -/
def filter_and_group (sel : String) (t : Table) : Table × List GRow :=
  let f := update_filter sel t
  (f, groupedTable f)

/-- Follows the spec's words, for comparison with `filter_and_group`:
"Must support exactly the enumerated values {All, Male, Female}; any other
value is an unsupported-input error." -/
def spec_filter_and_group (sel : String) (t : Table) :
    Except String (Table × List GRow) :=
  if sel = "All" ∨ sel = "Male" ∨ sel = "Female" then
    Except.ok (filter_and_group sel t)
  else
    Except.error "unsupported selection value"

/-- The callback `update_plots` (source lines 324–351) over an explicit
heap of tables whose slot 0 is the module-level global `selected_data`.
Both filter branches end in `.copy()`, so the filtered table is a fresh
heap slot; `generate_figures` then mutates that slot in place (the bin
column assignment).  Returns the post-run heap, the grouped table, and the
figure set. -/
def update_plots (sel : String) (heap : List Table) :
    List Table × List GRow × FigureSet :=
  let working := heap.headD []
  let filtered := update_filter sel working
  let grouped := groupedTable filtered
  let res := generate_figures filtered grouped
  let heap1 := (heap ++ [filtered]).set heap.length res.1
  (heap1, grouped, res.2.2)

/-- Row builder for the concrete sample tables below. -/
def mkRow (sex : String) (st : Option String) (net hed : String)
    (cons absn gpa : ℚ) : Row where
  sex := sex
  studytime := st
  internet := net
  higher_education := hed
  failures := 0
  freetime := 3
  traveltime := 1
  consumptionlevel := cons
  absences := absn
  GPA := gpa

/-- A small sample working table (sexes Male/Female only, all studytime
codes mapped). -/
def tEx : Table :=
  [ mkRow "Male" (some "<2 hours") "yes" "yes" 1 2 50
  , mkRow "Female" (some "2-5 hours") "no" "yes" 3 0 75
  , mkRow "Female" (some "<2 hours") "yes" "no" 5 4 60 ]

/-- Sample filtered table whose `consumptionlevel` column spans 1–3. -/
def tCut13 : Table :=
  [ mkRow "Male" (some "<2 hours") "yes" "yes" 1 2 50
  , mkRow "Male" (some "2-5 hours") "yes" "yes" 3 1 80 ]

/-- Sample filtered table whose `consumptionlevel` column spans 3–5: its
row with value 3 is the same student record as the second row of
`tCut13`. -/
def tCut35 : Table :=
  [ mkRow "Male" (some "2-5 hours") "yes" "yes" 3 1 80
  , mkRow "Male" (some "5-10 hours") "yes" "yes" 5 6 40 ]

/-- A raw record whose studytime code 5 is outside the mapping
{1, 2, 3, 4}. -/
def rawEx5 : RawRow where
  sex := "F"
  studytime := 5
  Dalc := 2
  Walc := 4
  G3 := 12
  higher := "yes"
  internet := "yes"
  failures := 0
  freetime := 3
  traveltime := 1
  absences := 2

/-- C9: for every row of the Derived Record, GPA equals the raw final
grade G3 multiplied by 5, and, when G3 lies in the 0–20 scale, GPA lies
in [0, 100]. -/
theorem gpa_is_rescaled_final_grade (r : RawRow) :
    (deriveRow r).GPA = r.G3 * 5 ∧
    (0 ≤ r.G3 → r.G3 ≤ 20 → 0 ≤ (deriveRow r).GPA ∧ (deriveRow r).GPA ≤ 100) := by
  refine ⟨rfl, fun h0 h20 => ?_⟩
  constructor
  · show (0 : ℚ) ≤ r.G3 * 5
    nlinarith
  · show r.G3 * 5 ≤ (100 : ℚ)
    nlinarith

/-- Witness for C9 at the concrete raw record `rawEx5` (G3 = 12). -/
theorem gpa_is_rescaled_final_grade_witness :
    (deriveRow rawEx5).GPA = rawEx5.G3 * 5 ∧
    (0 ≤ rawEx5.G3 ∧ rawEx5.G3 ≤ 20) ∧
    0 ≤ (deriveRow rawEx5).GPA ∧ (deriveRow rawEx5).GPA ≤ 100 := by
  have h := gpa_is_rescaled_final_grade rawEx5
  have h0 : (0 : ℚ) ≤ rawEx5.G3 := by norm_num [rawEx5]
  have h20 : rawEx5.G3 ≤ 20 := by norm_num [rawEx5]
  exact ⟨h.1, ⟨h0, h20⟩, h.2 h0 h20⟩

/-- C10: for every row of the Derived Record, consumption level equals
`max(Dalc, Walc)`, and, when both ratings lie in 1–5, the consumption
level lies in [1, 5]. -/
theorem consumption_is_max_of_ratings (r : RawRow) :
    (deriveRow r).consumptionlevel = max r.Dalc r.Walc ∧
    (1 ≤ r.Dalc → r.Dalc ≤ 5 → 1 ≤ r.Walc → r.Walc ≤ 5 →
      1 ≤ (deriveRow r).consumptionlevel ∧ (deriveRow r).consumptionlevel ≤ 5) := by
  refine ⟨rfl, fun hd1 hd5 hw1 hw5 => ?_⟩
  constructor
  · show (1 : ℚ) ≤ max r.Dalc r.Walc
    exact le_trans hd1 (le_max_left _ _)
  · show max r.Dalc r.Walc ≤ (5 : ℚ)
    exact max_le hd5 hw5

/-- Witness for C10 at the concrete raw record `rawEx5`
(Dalc = 2, Walc = 4). -/
theorem consumption_is_max_of_ratings_witness :
    (deriveRow rawEx5).consumptionlevel = max rawEx5.Dalc rawEx5.Walc ∧
    (1 ≤ rawEx5.Dalc ∧ rawEx5.Dalc ≤ 5 ∧ 1 ≤ rawEx5.Walc ∧ rawEx5.Walc ≤ 5) ∧
    1 ≤ (deriveRow rawEx5).consumptionlevel ∧
    (deriveRow rawEx5).consumptionlevel ≤ 5 := by
  have h := consumption_is_max_of_ratings rawEx5
  have h1 : (1 : ℚ) ≤ rawEx5.Dalc := by norm_num [rawEx5]
  have h2 : rawEx5.Dalc ≤ 5 := by norm_num [rawEx5]
  have h3 : (1 : ℚ) ≤ rawEx5.Walc := by norm_num [rawEx5]
  have h4 : rawEx5.Walc ≤ 5 := by norm_num [rawEx5]
  exact ⟨h.1, ⟨h1, h2, h3, h4⟩, h.2 h1 h2 h3 h4⟩

/-- C4 (code behaviour at the failing input): the derivation maps the
out-of-range studytime code 5 to NaN (`none`) silently — `pd.Series.map`
sends keys absent from the mapping dict to NaN and nothing raises — so
the resulting row carries a missing studytime category instead of a
data-quality failure being surfaced. -/
theorem studytime_unmapped_code_silently_nan :
    studytimeMap 5 = none ∧ (deriveRow rawEx5).studytime = none :=
  ⟨rfl, rfl⟩

/-- C1: filtering by "All" keeps every row of the working table;
filtering by "Male"/"Female" keeps exactly the matching rows, with row
count the number of matching rows; and when every row is Male or Female,
the Male- and Female-filtered tables together are a permutation of the
"All"-filtered table. -/
theorem filter_by_selection (t : Table)
    (h : ∀ r ∈ t, r.sex = "Male" ∨ r.sex = "Female") :
    (update_filter "All" t).length = t.length ∧
    update_filter "Male" t = t.filter (fun r => r.sex == "Male") ∧
    (update_filter "Male" t).length = t.countP (fun r => r.sex == "Male") ∧
    update_filter "Female" t = t.filter (fun r => r.sex == "Female") ∧
    (update_filter "Female" t).length = t.countP (fun r => r.sex == "Female") ∧
    (update_filter "Male" t ++ update_filter "Female" t).Perm (update_filter "All" t) := by
  have hM : update_filter "Male" t = t.filter (fun r => r.sex == "Male") := by
    simp [update_filter]
  have hF : update_filter "Female" t = t.filter (fun r => r.sex == "Female") := by
    simp [update_filter]
  have hA : update_filter "All" t = t := rfl
  have hcongr : t.filter (fun r => r.sex == "Female")
      = t.filter (fun r => !(r.sex == "Male")) := by
    refine List.filter_congr (fun r hr => ?_)
    rcases h r hr with h1 | h1 <;> simp [h1]
  refine ⟨by rw [hA], hM, ?_, hF, ?_, ?_⟩
  · rw [hM]; exact (List.countP_eq_length_filter _ t).symm
  · rw [hF]; exact (List.countP_eq_length_filter _ t).symm
  · rw [hA, hM, hF, hcongr]; exact List.filter_append_perm _ t

/-- Witness for C1 at the concrete table `tEx`. -/
theorem filter_by_selection_witness :
    (∀ r ∈ tEx, r.sex = "Male" ∨ r.sex = "Female") ∧
    (update_filter "All" tEx).length = tEx.length ∧
    update_filter "Male" tEx = tEx.filter (fun r => r.sex == "Male") ∧
    (update_filter "Male" tEx).length = tEx.countP (fun r => r.sex == "Male") ∧
    update_filter "Female" tEx = tEx.filter (fun r => r.sex == "Female") ∧
    (update_filter "Female" tEx).length = tEx.countP (fun r => r.sex == "Female") ∧
    (update_filter "Male" tEx ++ update_filter "Female" tEx).Perm (update_filter "All" tEx) := by
  have h : ∀ r ∈ tEx, r.sex = "Male" ∨ r.sex = "Female" := by
    intro r hr
    simp [tEx, mkRow] at hr
    rcases hr with rfl | rfl | rfl
    · left; rfl
    · right; rfl
    · right; rfl
  exact ⟨h, filter_by_selection tEx h⟩
/-- C2: the grouped table has exactly one row per distinct grouping key
combination present in the filtered table — absent combinations yield no
row — and each grouped row's aggregated columns are the means over that
(nonempty) group's rows. -/
theorem grouped_one_row_per_present_key (t : Table)
    (hst : ∀ r ∈ t, r.studytime.isSome) :
    (groupedTable t).length = ((t.map keyOf).dedup).length ∧
    ((groupedTable t).map GRow.key).Nodup ∧
    (∀ g ∈ groupedTable t,
      (∃ r ∈ t, keyOf r = g.key) ∧
      (t.filter (fun r => keyOf r == g.key)).length ≠ 0 ∧
      g.consumptionlevel
        = meanQ ((t.filter (fun r => keyOf r == g.key)).map Row.consumptionlevel) ∧
      g.failures = meanQ ((t.filter (fun r => keyOf r == g.key)).map Row.failures) ∧
      g.absences = meanQ ((t.filter (fun r => keyOf r == g.key)).map Row.absences) ∧
      g.GPA = meanQ ((t.filter (fun r => keyOf r == g.key)).map Row.GPA)) ∧
    (∀ k : GKey, (∃ r ∈ t, keyOf r = k) → ∃ g ∈ groupedTable t, g.key = k) := by
  have hg : groupable t = t :=
    List.filter_eq_self.mpr (fun r hr => hst r hr)
  have hkeys : gkeys t = (t.map keyOf).dedup := by rw [gkeys, hg]
  have hgroup : ∀ k, groupOf t k = t.filter (fun r => keyOf r == k) := by
    intro k; rw [groupOf, hg]
  refine ⟨?_, ?_, ?_, ?_⟩
  · rw [groupedTable, List.length_map, hkeys]
  · have : (groupedTable t).map GRow.key = gkeys t := by
      rw [groupedTable, List.map_map]
      show List.map id (gkeys t) = gkeys t
      exact List.map_id _
    rw [this, hkeys]; exact List.nodup_dedup _
  · intro g hgmem
    rw [groupedTable, List.mem_map] at hgmem
    obtain ⟨k, hk, rfl⟩ := hgmem
    rw [hkeys, List.mem_dedup, List.mem_map] at hk
    obtain ⟨r, hr, rfl⟩ := hk
    refine ⟨⟨r, hr, rfl⟩, ?_, ?_, ?_, ?_, ?_⟩
    · have : r ∈ t.filter (fun x => keyOf x == keyOf r) :=
        List.mem_filter.mpr ⟨hr, by simp⟩
      intro hlen
      rw [List.length_eq_zero.mp hlen] at this
      exact (List.not_mem_nil r) this
    · simp [hgroup]
    · simp [hgroup]
    · simp [hgroup]
    · simp [hgroup]
  · intro k ⟨r, hr, hkr⟩
    refine ⟨_, List.mem_map_of_mem _ ?_, rfl⟩
    rw [hkeys, List.mem_dedup, List.mem_map]
    exact ⟨r, hr, hkr⟩
/-- Witness for C2 at the concrete table `tEx`. -/
theorem grouped_one_row_per_present_key_witness :
    (∀ r ∈ tEx, r.studytime.isSome) ∧
    (groupedTable tEx).length = ((tEx.map keyOf).dedup).length ∧
    ((groupedTable tEx).map GRow.key).Nodup ∧
    (∀ g ∈ groupedTable tEx,
      (∃ r ∈ tEx, keyOf r = g.key) ∧
      (tEx.filter (fun r => keyOf r == g.key)).length ≠ 0 ∧
      g.consumptionlevel
        = meanQ ((tEx.filter (fun r => keyOf r == g.key)).map Row.consumptionlevel) ∧
      g.failures = meanQ ((tEx.filter (fun r => keyOf r == g.key)).map Row.failures) ∧
      g.absences = meanQ ((tEx.filter (fun r => keyOf r == g.key)).map Row.absences) ∧
      g.GPA = meanQ ((tEx.filter (fun r => keyOf r == g.key)).map Row.GPA)) ∧
    (∀ k : GKey, (∃ r ∈ tEx, keyOf r = k) → ∃ g ∈ groupedTable tEx, g.key = k) := by
  have hst : ∀ r ∈ tEx, r.studytime.isSome := by
    intro r hr
    simp [tEx, mkRow] at hr
    rcases hr with rfl | rfl | rfl <;> rfl
  exact ⟨hst, grouped_one_row_per_present_key tEx hst⟩
/-- One run of the callback appends a fresh filtered table to the heap and
mutates only that slot, so the heap keeps its head. -/
lemma update_plots_heap_shape (sel : String) (w : Table) (rest : List Table) :
    ∃ l, (update_plots sel (w :: rest)).1 = w :: l := by
  refine ⟨(rest ++ [update_filter sel w]).set rest.length
    (generate_figures (update_filter sel w)
      (groupedTable (update_filter sel w))).1, ?_⟩
  simp [update_plots]

/-- C3: the working table (heap slot 0) survives any control event — and
any repeated event — unchanged: both filter branches copy, so the
in-place bin-column assignment inside `generate_figures` lands on the
fresh filtered table, never on the shared working table. -/
theorem working_table_never_mutated (sel1 sel2 : String) (w : Table) (rest : List Table) :
    (update_plots sel1 (w :: rest)).1.head? = some w ∧
    (update_plots sel2 ((update_plots sel1 (w :: rest)).1)).1.head? = some w := by
  obtain ⟨l1, h1⟩ := update_plots_heap_shape sel1 w rest
  obtain ⟨l2, h2⟩ := update_plots_heap_shape sel2 w l1
  rw [h1]
  exact ⟨rfl, by rw [h2]; rfl⟩

/-- Counterexample to C5 at the concrete selection "Other" and table
`tEx`: the engine returns an ordinary (empty) filtered/grouped pair — the
source has no error path — whereas the spec-worded engine
`spec_filter_and_group` signals an unsupported-input error. -/
theorem unsupported_selection_returns_pair :
    filter_and_group "Other" tEx = ([], []) ∧
    spec_filter_and_group "Other" tEx
      = Except.error "unsupported selection value" :=
  ⟨rfl, rfl⟩

/-- C5 as amended: for any selection other than "All" the engine
equality-filters on the sex column; a value outside the enumerated set,
on a table whose sexes are Male/Female, therefore yields the empty
filtered/grouped pair rather than an error. -/
theorem unsupported_selection_filters_to_empty (sel : String) (t : Table)
    (hAll : sel ≠ "All") (hM : sel ≠ "Male") (hF : sel ≠ "Female")
    (hsex : ∀ r ∈ t, r.sex = "Male" ∨ r.sex = "Female") :
    (filter_and_group sel t).1 = t.filter (fun r => r.sex == sel) ∧
    filter_and_group sel t = ([], []) := by
  have h1 : update_filter sel t = t.filter (fun r => r.sex == sel) := by
    rw [update_filter, if_neg hAll]
  have h2 : t.filter (fun r => r.sex == sel) = [] := by
    rw [List.filter_eq_nil_iff]
    intro r hr
    rcases hsex r hr with h | h <;> rw [h] <;> simp <;>
      [exact fun e => hM e.symm; exact fun e => hF e.symm]
  constructor
  · rw [filter_and_group]; exact h1
  · rw [filter_and_group, h1, h2]; rfl

/-- Witness for the amended C5 at selection "Other" and table `tEx`. -/
theorem unsupported_selection_filters_to_empty_witness :
    ("Other" ≠ "All" ∧ "Other" ≠ "Male" ∧ "Other" ≠ "Female" ∧
      (∀ r ∈ tEx, r.sex = "Male" ∨ r.sex = "Female")) ∧
    (filter_and_group "Other" tEx).1 = tEx.filter (fun r => r.sex == "Other") ∧
    filter_and_group "Other" tEx = ([], []) := by
  have hsex : ∀ r ∈ tEx, r.sex = "Male" ∨ r.sex = "Female" := by
    intro r hr
    simp [tEx, mkRow] at hr
    rcases hr with rfl | rfl | rfl
    · left; rfl
    · right; rfl
    · right; rfl
  have hA : "Other" ≠ "All" := by decide
  have hM : "Other" ≠ "Male" := by decide
  have hF : "Other" ≠ "Female" := by decide
  exact ⟨⟨hA, hM, hF, hsex⟩,
    unsupported_selection_filters_to_empty "Other" tEx hA hM hF hsex⟩
/-- A min-fold is bounded by its initial value. -/
lemma foldl_min_le_init (xs : List ℚ) (a : ℚ) : xs.foldl min a ≤ a := by
  induction xs generalizing a with
  | nil => exact le_refl a
  | cons y ys ih => exact le_trans (ih (min a y)) (min_le_left a y)

/-- A min-fold is bounded by every list element. -/
lemma foldl_min_le_mem {xs : List ℚ} {x : ℚ} (h : x ∈ xs) (a : ℚ) :
    xs.foldl min a ≤ x := by
  induction xs generalizing a with
  | nil => cases h
  | cons y ys ih =>
    rcases List.mem_cons.mp h with rfl | hx
    · exact le_trans (foldl_min_le_init ys (min a x)) (min_le_right a x)
    · exact ih hx (min a y)

/-- A max-fold dominates its initial value. -/
lemma init_le_foldl_max (xs : List ℚ) (a : ℚ) : a ≤ xs.foldl max a := by
  induction xs generalizing a with
  | nil => exact le_refl a
  | cons y ys ih => exact le_trans (le_max_left a y) (ih (max a y))

/-- A max-fold dominates every list element. -/
lemma mem_le_foldl_max {xs : List ℚ} {x : ℚ} (h : x ∈ xs) (a : ℚ) :
    x ≤ xs.foldl max a := by
  induction xs generalizing a with
  | nil => cases h
  | cons y ys ih =>
    rcases List.mem_cons.mp h with rfl | hx
    · exact le_trans (le_max_right a x) (init_le_foldl_max ys (max a x))
    · exact ih hx (max a y)

/-- The column minimum is a lower bound of the column. -/
lemma colMin_le_mem {l : List ℚ} {x : ℚ} (h : x ∈ l) : colMin l ≤ x := by
  cases l with
  | nil => cases h
  | cons y ys =>
    rcases List.mem_cons.mp h with rfl | hx
    · exact foldl_min_le_init ys x
    · exact foldl_min_le_mem hx y

/-- The column maximum is an upper bound of the column. -/
lemma mem_le_colMax {l : List ℚ} {x : ℚ} (h : x ∈ l) : x ≤ colMax l := by
  cases l with
  | nil => cases h
  | cons y ys =>
    rcases List.mem_cons.mp h with rfl | hx
    · exact init_le_foldl_max ys x
    · exact mem_le_foldl_max hx y

/-- The bin edges when the column minimum and maximum differ. -/
lemma cutEdges_of_ne {mn mx : ℚ} (h : mn ≠ mx) :
    cutEdges mn mx =
      (mn - (mx - mn) / 1000, mn + (mx - mn) / 3,
       mn + 2 * ((mx - mn) / 3), mx) := by
  rw [cutEdges, if_neg h]

/-- The bin edges for a constant nonzero column. -/
lemma cutEdges_of_eq_ne_zero {mn : ℚ} (h0 : mn ≠ 0) :
    cutEdges mn mn =
      (mn - |mn| / 1000,
       (mn - |mn| / 1000) + ((mn + |mn| / 1000) - (mn - |mn| / 1000)) / 3,
       (mn - |mn| / 1000) + 2 * (((mn + |mn| / 1000) - (mn - |mn| / 1000)) / 3),
       mn + |mn| / 1000) := by
  rw [cutEdges, if_pos rfl]
  simp only [if_neg h0]

/-- The bin edges for a constant zero column. -/
lemma cutEdges_of_eq_zero :
    cutEdges 0 0 =
      (-(1/1000), -(1/1000) + (1/1000 - -(1/1000)) / 3,
       -(1/1000) + 2 * ((1/1000 - -(1/1000)) / 3), 1/1000) := by
  rw [cutEdges, if_pos rfl]
  norm_num

/-- Every value between the column minimum and maximum receives one of
the three bin labels: the leftmost edge sits strictly below the minimum,
the rightmost edge is the maximum, and the bins tile the range. -/
lemma cutLabel3_total {mn mx v : ℚ} (h1 : mn ≤ v) (h2 : v ≤ mx) :
    ∃ lab, cutLabel3 mn mx v = some lab ∧
      (lab = "Low" ∨ lab = "Medium" ∨ lab = "High") := by
  by_cases hE : mn = mx
  · subst hE
    have hv : v = mn := le_antisymm h2 h1
    subst hv
    by_cases h0 : v = 0
    · subst h0
      refine ⟨"Medium", ?_, Or.inr (Or.inl rfl)⟩
      rw [cutLabel3, cutEdges_of_eq_zero]
      norm_num
    · refine ⟨"Medium", ?_, Or.inr (Or.inl rfl)⟩
      rw [cutLabel3, cutEdges_of_eq_ne_zero h0]
      have habs : 0 < |v| := abs_pos.mpr h0
      have hA : ¬(v ≤ v - |v| / 1000) := by intro h; linarith
      have hB : ¬(v ≤ (v - |v| / 1000) + ((v + |v| / 1000) - (v - |v| / 1000)) / 3) := by
        intro h; linarith
      have hC : v ≤ (v - |v| / 1000) + 2 * (((v + |v| / 1000) - (v - |v| / 1000)) / 3) := by
        linarith
      simp only [if_neg hA, if_neg hB, if_pos hC]
  · have hlt : mn < mx := lt_of_le_of_ne (le_trans h1 h2) hE
    rw [cutLabel3, cutEdges_of_ne hE]
    have hadj : 0 < (mx - mn) / 1000 := by linarith
    have hA : ¬(v ≤ mn - (mx - mn) / 1000) := by intro h; linarith
    by_cases hB : v ≤ mn + (mx - mn) / 3
    · exact ⟨"Low", by simp only [if_neg hA, if_pos hB], Or.inl rfl⟩
    · by_cases hC : v ≤ mn + 2 * ((mx - mn) / 3)
      · exact ⟨"Medium", by simp only [if_neg hA, if_neg hB, if_pos hC],
          Or.inr (Or.inl rfl)⟩
      · exact ⟨"High", by simp only [if_neg hA, if_neg hB, if_neg hC, if_pos h2],
          Or.inr (Or.inr rfl)⟩
/-- C8 as amended: the box chart bins each row by cutting the range
between the minimum and maximum of the filtered table's own
consumption-level column (leftmost edge lowered by 0.1% of the range)
into three equal-width right-closed bins labelled Low/Medium/High — the
label is a function of the row's value together with the column's min and
max, and every row receives a label. -/
theorem bin_label_from_column_range (t : Table) (r : Row) (hr : r ∈ t) :
    ∃ lab,
      cutLabel3 (colMin (t.map Row.consumptionlevel))
        (colMax (t.map Row.consumptionlevel)) r.consumptionlevel = some lab ∧
      (lab = "Low" ∨ lab = "Medium" ∨ lab = "High") ∧
      { r with consumption_level := some lab } ∈ addConsumptionBin t := by
  have hmem : r.consumptionlevel ∈ t.map Row.consumptionlevel :=
    List.mem_map_of_mem _ hr
  obtain ⟨lab, hlab, hcase⟩ :=
    cutLabel3_total (colMin_le_mem hmem) (mem_le_colMax hmem)
  refine ⟨lab, hlab, hcase, ?_⟩
  simp only [addConsumptionBin]
  rw [← hlab]
  exact List.mem_map_of_mem _ hr

/-- Witness for the amended C8 at the first row of `tEx`. -/
theorem bin_label_from_column_range_witness :
    (mkRow "Male" (some "<2 hours") "yes" "yes" 1 2 50 ∈ tEx) ∧
    ∃ lab,
      cutLabel3 (colMin (tEx.map Row.consumptionlevel))
        (colMax (tEx.map Row.consumptionlevel))
        (mkRow "Male" (some "<2 hours") "yes" "yes" 1 2 50).consumptionlevel
        = some lab ∧
      (lab = "Low" ∨ lab = "Medium" ∨ lab = "High") ∧
      { mkRow "Male" (some "<2 hours") "yes" "yes" 1 2 50 with
          consumption_level := some lab } ∈ addConsumptionBin tEx := by
  have hr : mkRow "Male" (some "<2 hours") "yes" "yes" 1 2 50 ∈ tEx := by
    simp [tEx]
  exact ⟨hr, bin_label_from_column_range tEx _ hr⟩

/-- Counterexample to C8 as stated: the student record with consumption
level 3 is labelled "High" inside the table `tCut13` (column range 1–3)
but "Low" inside the table `tCut35` (column range 3–5), and the
fixed-1–5-range rule the spec words describe would label it "Medium" —
the bin label is not a function of the row's value alone. -/
theorem bin_label_not_function_of_value :
    (tCut13.map Row.consumptionlevel)[1]? = some 3 ∧
    (tCut35.map Row.consumptionlevel)[0]? = some 3 ∧
    ((addConsumptionBin tCut13).map (fun r => r.consumption_level))[1]?
      = some (some "High") ∧
    ((addConsumptionBin tCut35).map (fun r => r.consumption_level))[0]?
      = some (some "Low") ∧
    specFixedBinLabel 3 = some "Medium" := by
  refine ⟨rfl, rfl, ?_, ?_, ?_⟩ <;>
    norm_num [addConsumptionBin, tCut13, tCut35, mkRow, colMin, colMax,
      cutLabel3, cutEdges, specFixedBinLabel]

/-- Counterexample to C6 as stated: `generate_figures` does not leave
its filtered input table unchanged — on `tCut13` (bin column absent,
`none` everywhere) the post-call table carries the freshly assigned
`consumption_level` column (line 112 of the source). -/
theorem generate_figures_mutates_filtered :
    tCut13.map (fun r => r.consumption_level) = [none, none] ∧
    ((generate_figures tCut13 []).1).map (fun r => r.consumption_level)
      = [some "Low", some "High"] ∧
    (generate_figures tCut13 []).1 ≠ tCut13 := by
  have hmut : ((generate_figures tCut13 []).1).map (fun r => r.consumption_level)
      = [some "Low", some "High"] := by
    show (addConsumptionBin tCut13).map (fun r => r.consumption_level)
      = [some "Low", some "High"]
    norm_num [addConsumptionBin, tCut13, mkRow, colMin, colMax, cutLabel3, cutEdges]
  refine ⟨rfl, hmut, fun hEq => ?_⟩
  rw [hEq] at hmut
  simp [tCut13, mkRow] at hmut

/-- C6 as amended: `generate_figures` is a function of its two table
arguments (determinism is immediate in the functional embedding), leaves
the grouped table untouched, and changes the filtered table only by
assigning the `consumption_level` bin column: same row count, all other
columns and cells unchanged, and every row receives a bin label. -/
theorem generate_figures_deterministic_frame (f : Table) (g : List GRow) :
    (generate_figures f g).2.1 = g ∧
    (generate_figures f g).1 = addConsumptionBin f ∧
    ((generate_figures f g).1).length = f.length ∧
    ((generate_figures f g).1).map (fun r => { r with consumption_level := none })
      = f.map (fun r => { r with consumption_level := none }) ∧
    (∀ r ∈ (generate_figures f g).1, ∃ lab, r.consumption_level = some lab ∧
      (lab = "Low" ∨ lab = "Medium" ∨ lab = "High")) := by
  refine ⟨rfl, rfl, ?_, ?_, ?_⟩
  · show (addConsumptionBin f).length = f.length
    simp [addConsumptionBin]
  · show (addConsumptionBin f).map _ = _
    simp only [addConsumptionBin, List.map_map]
    rfl
  · intro r hrmem
    have hrmem2 : r ∈ addConsumptionBin f := hrmem
    simp only [addConsumptionBin, List.mem_map] at hrmem2
    obtain ⟨r0, hr0, rfl⟩ := hrmem2
    have hv : r0.consumptionlevel ∈ f.map Row.consumptionlevel :=
      List.mem_map_of_mem _ hr0
    obtain ⟨lab, hlab, hcase⟩ :=
      cutLabel3_total (colMin_le_mem hv) (mem_le_colMax hv)
    exact ⟨lab, by simp [hlab], hcase⟩

/-- Witness for the amended C6 at the concrete tables `tCut13`, `[]`. -/
theorem generate_figures_deterministic_frame_witness :
    (generate_figures tCut13 []).2.1 = ([] : List GRow) ∧
    (generate_figures tCut13 []).1 = addConsumptionBin tCut13 ∧
    ((generate_figures tCut13 []).1).length = tCut13.length ∧
    ((generate_figures tCut13 []).1).map (fun r => { r with consumption_level := none })
      = tCut13.map (fun r => { r with consumption_level := none }) ∧
    (∀ r ∈ (generate_figures tCut13 []).1, ∃ lab, r.consumption_level = some lab ∧
      (lab = "Low" ∨ lab = "Medium" ∨ lab = "High")) :=
  generate_figures_deterministic_frame tCut13 []
/-- Every row of a filtered table comes from the working table. -/
lemma mem_update_filter {sel : String} {t : Table} {r : Row}
    (h : r ∈ update_filter sel t) : r ∈ t := by
  rw [update_filter] at h
  split at h
  · exact h
  · exact List.mem_of_mem_filter h

/-- The x-values of the line chart are the studytime categories present
in the data, in category order. -/
lemma lineChartData_map_fst (u : Table) :
    (lineChartData u).map Prod.fst
      = stCategories.filter (fun c => u.any (fun r => r.studytime == some c)) := by
  rw [lineChartData, List.map_map]
  show List.map id _ = _
  exact List.map_id _

/-- C7: for every selection, the line chart has at most 4 points, its
x-values are a nodup sublist of the ordered category list (so the points
are sorted in category order, one per category), each point's y-value is
the mean GPA of that category's rows in the filtered table, and a
category occurs as a point exactly when it occurs in the filtered table.
The hypothesis records the categorical dtype of the studytime column: its
values range over the four fixed categories. -/
theorem line_chart_one_point_per_present_category (sel : String) (t : Table)
    (hcat : ∀ r ∈ t, ∀ c, r.studytime = some c → c ∈ stCategories) :
    (lineChartData (update_filter sel t)).length ≤ 4 ∧
    ((lineChartData (update_filter sel t)).map Prod.fst).Sublist stCategories ∧
    ((lineChartData (update_filter sel t)).map Prod.fst).Nodup ∧
    (∀ c m, (c, m) ∈ lineChartData (update_filter sel t) →
      (∃ r ∈ update_filter sel t, r.studytime = some c) ∧
      m = meanGPAof (update_filter sel t) c) ∧
    (∀ c, (∃ r ∈ update_filter sel t, r.studytime = some c) →
      (c, meanGPAof (update_filter sel t) c)
        ∈ lineChartData (update_filter sel t)) := by
  have hfst := lineChartData_map_fst (update_filter sel t)
  have hsub : ((lineChartData (update_filter sel t)).map Prod.fst).Sublist
      stCategories := by
    rw [hfst]; exact List.filter_sublist _
  refine ⟨?_, hsub, ?_, ?_, ?_⟩
  · have hlen := hsub.length_le
    rw [List.length_map] at hlen
    simpa [stCategories] using hlen
  · rw [hfst]
    exact (by decide : stCategories.Nodup).filter _
  · intro c m hcm
    rw [lineChartData, List.mem_map] at hcm
    obtain ⟨c2, hc2, heq⟩ := hcm
    cases heq
    rw [List.mem_filter, List.any_eq_true] at hc2
    obtain ⟨hcmem, r, hr, hbeq⟩ := hc2
    exact ⟨⟨r, hr, by simpa using hbeq⟩, rfl⟩
  · intro c hc
    obtain ⟨r, hr, hst⟩ := hc
    have hcmem : c ∈ stCategories := hcat r (mem_update_filter hr) c hst
    have hfmem : c ∈ stCategories.filter
        (fun c => (update_filter sel t).any (fun r => r.studytime == some c)) :=
      List.mem_filter.mpr ⟨hcmem, List.any_eq_true.mpr ⟨r, hr, by simp [hst]⟩⟩
    exact List.mem_map_of_mem _ hfmem

/-- Witness for C7 at selection "Female" on the concrete table `tEx`. -/
theorem line_chart_one_point_per_present_category_witness :
    (∀ r ∈ tEx, ∀ c, r.studytime = some c → c ∈ stCategories) ∧
    (lineChartData (update_filter "Female" tEx)).length ≤ 4 ∧
    ((lineChartData (update_filter "Female" tEx)).map Prod.fst).Sublist stCategories ∧
    ((lineChartData (update_filter "Female" tEx)).map Prod.fst).Nodup ∧
    (∀ c m, (c, m) ∈ lineChartData (update_filter "Female" tEx) →
      (∃ r ∈ update_filter "Female" tEx, r.studytime = some c) ∧
      m = meanGPAof (update_filter "Female" tEx) c) ∧
    (∀ c, (∃ r ∈ update_filter "Female" tEx, r.studytime = some c) →
      (c, meanGPAof (update_filter "Female" tEx) c)
        ∈ lineChartData (update_filter "Female" tEx)) := by
  have hcat : ∀ r ∈ tEx, ∀ c, r.studytime = some c → c ∈ stCategories := by
    intro r hr c hc
    simp [tEx, mkRow] at hr
    rcases hr with rfl | rfl | rfl <;>
      simp [mkRow] at hc <;> simp [hc, stCategories]
  exact ⟨hcat, line_chart_one_point_per_present_category "Female" tEx hcat⟩
